import Mathlib

/-
Verification of the SCF-analysis repository (files scf_collector.py and
wealth_stats_overtime.py) against its natural-language specification.

The two Python modules are shallowly embedded below:
  * scf_collector.py      : URL and filesystem-path assembly of SCF_load_data and
                            the directory-creation behaviour of scrape_SCF;
  * wealth_stats_overtime.py : the load_df column transforms, the
                            display_group_avgs aggregator, and the
                            calc_zero_networth_races_overtime driver.

Tables are lists of rows; pandas Series values are rationals (Python floats carry
exact decimal data in this code path, so exact rational arithmetic is the model);
missing values (NaN produced by Series.map on unmapped keys) are Option.none.
-/

namespace SCF

/-! ### Python-level helpers -/

/-- Python round(x, 1): rounding to one decimal place.  Python rounds ties to
even; no tie is exercised anywhere below, so round-half-up on rationals (the
rounding of Mathlib round) is an adequate model of the tie rule. -/
def round1 (x : ℚ) : ℚ := ((round (10 * x) : ℤ) : ℚ) / 10

/-- ASCII lowering of one character, as str.lower does on the labels that occur
here (all ASCII). -/
def lowerChar (c : Char) : Char :=
  if 65 ≤ c.toNat ∧ c.toNat ≤ 90 then Char.ofNat (c.toNat + 32) else c

/-- Python str.lower restricted to ASCII strings (all labels in this program are
ASCII). -/
def pyLower (s : String) : String := ⟨s.data.map lowerChar⟩

/-- Whether a string starts with the character / . -/
def startsWithSlash (s : String) : Bool := s.data.head? = some '/'

/-- Whether a string ends with the character / . -/
def endsWithSlash (s : String) : Bool := s.data.getLast? = some '/'

/-- os.path.join on POSIX for two components: an absolute second component
replaces the first; otherwise a separator is inserted unless the first component
is empty or already ends in a separator. -/
def os_path_join (a b : String) : String :=
  if startsWithSlash b then b
  else if a = "" then b
  else if endsWithSlash a then a ++ b
  else a ++ "/" ++ b

/-- Python range(start, stop, 3): the i-th element is start + 3*i, and the
number of elements is the number of multiples of 3 in [start, stop), i.e.
ceil((stop - start)/3) (Nat subtraction makes the list empty when stop ≤ start,
as in Python). -/
def pyRange3 (start stop : Nat) : List Nat :=
  (List.range ((stop - start + 2) / 3)).map (fun i => start + 3 * i)

/-! ### Facts about decimal numerals (str(year) in Python, Nat.repr here) -/

theorem toDigitsCore_length_le (b : Nat) :
    ∀ (fuel n : Nat) (ds : List Char),
      ds.length ≤ (Nat.toDigitsCore b fuel n ds).length := by
  intro fuel
  induction fuel with
  | zero => intro n ds; simp [Nat.toDigitsCore]
  | succ f ih =>
    intro n ds
    simp only [Nat.toDigitsCore]
    split
    · simp
    · exact le_trans (by simp) (ih _ _)

theorem toDigitsCore_length_pos (b f n : Nat) (ds : List Char) :
    ds.length + 1 ≤ (Nat.toDigitsCore b (f + 1) n ds).length := by
  simp only [Nat.toDigitsCore]
  split
  · simp
  · exact le_trans (by simp) (toDigitsCore_length_le b f _ _)

theorem digitChar_ne_slash (m : Nat) : Nat.digitChar m ≠ '/' := by
  rcases lt_or_le m 16 with h | h
  · interval_cases m <;> decide
  · unfold Nat.digitChar
    repeat rw [if_neg (by omega)]
    decide

theorem toDigitsCore_chars (b : Nat) :
    ∀ (fuel n : Nat) (ds : List Char), (∀ c ∈ ds, c ≠ '/') →
      ∀ c ∈ Nat.toDigitsCore b fuel n ds, c ≠ '/' := by
  intro fuel
  induction fuel with
  | zero => intro n ds h; simpa [Nat.toDigitsCore] using h
  | succ f ih =>
    intro n ds h
    simp only [Nat.toDigitsCore]
    split
    · intro c hc
      rcases List.mem_cons.mp hc with rfl | hc
      · exact digitChar_ne_slash _
      · exact h _ hc
    · refine ih _ _ ?_
      intro c hc
      rcases List.mem_cons.mp hc with rfl | hc
      · exact digitChar_ne_slash _
      · exact h _ hc

theorem repr_data_ne_nil (n : Nat) : (toString n).data ≠ [] := by
  have hd : (toString n).data = Nat.toDigits 10 n := rfl
  have hlen : 0 + 1 ≤ (Nat.toDigitsCore 10 (n + 1) n []).length :=
    toDigitsCore_length_pos 10 n n []
  intro hfalse
  rw [hd] at hfalse
  have : (Nat.toDigits 10 n).length = 0 := by rw [hfalse]; rfl
  rw [show Nat.toDigits 10 n = Nat.toDigitsCore 10 (n + 1) n [] from rfl] at this
  omega

theorem repr_chars_ne_slash (n : Nat) : ∀ c ∈ (toString n).data, c ≠ '/' := by
  have hd : (toString n).data = Nat.toDigits 10 n := rfl
  rw [hd]
  exact toDigitsCore_chars 10 _ _ _ (by simp)

theorem startsWithSlash_repr (n : Nat) : startsWithSlash (toString n) = false := by
  unfold startsWithSlash
  cases hh : (toString n).data.head? with
  | none => simp
  | some c =>
    have hc : c ∈ (toString n).data :=
      List.mem_of_mem_head? (by rw [hh]; exact Option.mem_some_self c)
    simp [repr_chars_ne_slash n c hc]

theorem endsWithSlash_repr (n : Nat) : endsWithSlash (toString n) = false := by
  unfold endsWithSlash
  cases hh : (toString n).data.getLast? with
  | none => simp
  | some c =>
    have hc : c ∈ (toString n).data := List.mem_of_getLast?_eq_some hh
    simp [repr_chars_ne_slash n c hc]

theorem repr_ne_empty (n : Nat) : toString n ≠ "" := by
  intro hfalse
  exact repr_data_ne_nil n (by rw [hfalse])

/-! ### Embedding of scf_collector.py -/

/-- The filetype keyword taken by SCF_load_data: the string values summary or
raw. -/
inductive FileType where
  | summary
  | raw
deriving DecidableEq

/-- The literal Python string held by the filetype argument. -/
def FileType.pyStr : FileType → String
  | .summary => "summary"
  | .raw => "raw"

/-- file_string in SCF_load_data: the letter p for the summary file, empty for
the raw file. -/
def file_string : FileType → String
  | .summary => "p"
  | .raw => ""

/-- panel_string in SCF_load_data: the letter p exactly when the year is not a
multiple of 3. -/
def panel_string (year : Nat) : String :=
  if year % 3 ≠ 0 then "p" else ""

/-- The download URL compiled by SCF_load_data. -/
def scf_url (year : Nat) (ft : FileType) : String :=
  "https://www.federalreserve.gov/econres/files/scf" ++
    (file_string ft ++ toString year ++ panel_string year) ++ "s.zip"

/-- The per-year target directory of SCF_load_data. -/
def scf_targetdir (datadir : String) (year : Nat) : String :=
  os_path_join datadir (toString year)

/-- The local archive path of SCF_load_data. -/
def scf_targetzip (datadir : String) (year : Nat) (ft : FileType) : String :=
  os_path_join (scf_targetdir datadir year)
    ("SCF" ++ toString year ++ "_data_public_" ++ ft.pyStr ++ ".zip")

/-- posixpath.split: the component after the last separator, and everything
before it with trailing separators stripped from the head unless the head is
all separators. -/
def pySplit (p : String) : String × String :=
  let rev := p.data.reverse
  let tailRev := rev.takeWhile (fun c => c ≠ '/')
  let restRev := rev.drop tailRev.length
  let tl : String := ⟨tailRev.reverse⟩
  if restRev = [] then ("", tl)
  else
    let stripped := restRev.dropWhile (fun c => c = '/')
    if stripped = [] then (⟨restRev.reverse⟩, tl)
    else (⟨stripped.reverse⟩, tl)

/-- The directories created by os.makedirs(p) on a state, deepest last:
os.makedirs splits off the final component, recursively creates the head when
it is a proper, absent ancestor, and then creates p itself (callers here call
it only on absent targets).  The recursion strictly shortens the path whenever
it fires, so the character length of the path bounds the recursion depth and
the fuel of makedirs_created never runs out on a reachable branch. -/
def makedirs_created_core : Nat → String → List String → List String
  | 0, p, _ => [p]
  | fuel + 1, p, existing =>
    let ht := pySplit p
    let ht := if ht.2 = "" then pySplit ht.1 else ht
    (if ht.1 ≠ "" ∧ ht.2 ≠ "" ∧ ht.1 ∉ existing then
      makedirs_created_core fuel ht.1 existing
    else []) ++ [p]

/-- os.makedirs(p) with the fuel instantiated to the length bound. -/
def makedirs_created (p : String) (existing : List String) : List String :=
  makedirs_created_core p.data.length p existing

/-- The directories created by one SCF_load_data call, given the paths that
already exist: when the per-year directory is absent, os.makedirs creates it
together with every missing parent — in particular the base directory itself
when it does not yet exist. -/
def SCF_load_data_created (datadir : String) (year : Nat)
    (existing : List String) : List String :=
  let targetdir := scf_targetdir datadir year
  if targetdir ∈ existing then [] else makedirs_created targetdir existing

/-- The value tested by the guard of scrape_SCF.  The source writes
if not os.path.exists: (without calling the function), so the guard tests the
truthiness of the function object os.path.exists itself, and a function object
is always truthy in Python. -/
def os_path_exists_unapplied : Bool := true

/-- The directories created by scrape_SCF: the base-directory branch guarded by
the uncalled os.path.exists, followed by the per-year creations of the
SCF_load_data calls over range(start, until+3, 3).  Each year is checked
against the initial state; the set of directories created is the same as under
year-to-year threading of the state, because a directory missing initially is
created by the first year that needs it and listed here for every year that
needs it, while the per-year target directories are pairwise distinct and
never ancestors of one another. -/
def scrape_SCF_created (datadir : String) (start untilY : Nat)
    (existing : List String) : List String :=
  (if os_path_exists_unapplied = false then [datadir] else []) ++
    ((pyRange3 start (untilY + 3)).map
      (fun y => SCF_load_data_created datadir y existing)).flatten

/-! ### Embedding of wealth_stats_overtime.py: data model -/

/-- One row of the rscfp{year}.dta summary file as read by pd.read_stata, with
the columns this program touches: the identifiers yy1 and y1, the sampling
weight wgt, the numeric race code, the net-worth figure and the vehicle value.
Other survey fields pass through unchanged and are irrelevant to every
statement below. -/
structure RawRow where
  yy1 : Int
  y1 : Int
  wgt : ℚ
  race_code : Int
  networth : ℚ
  vehic : ℚ

/-- One row of the table returned by load_df for the summary filetype: yy1 and
y1 renamed to household_id and imputed_hh_id, the race code decoded to an
optional label (none is the NaN that Series.map leaves on unmapped codes), and
the derived implicate and hh_wgt columns. -/
structure Row where
  household_id : Int
  imputed_hh_id : Int
  wgt : ℚ
  race : Option String
  networth : ℚ
  vehic : ℚ
  implicate : Int
  hh_wgt : ℚ

/-- The race_map dictionary of load_df, directly from the codebook. -/
def race_map : List (Int × String) :=
  [(1, "white non-Hispanic"),
   (2, "black/African-American"),
   (3, "Hispanic"),
   (4, "Asian"),
   (5, "other")]

/-- Series.map with a dictionary argument: a key present in the dictionary maps
to its value, any other key becomes NaN (modelled as none). -/
def mapRaceCode (c : Int) : Option String := race_map.lookup c

/-- load_df for the summary filetype, applied to the parsed .dta rows: renames
yy1 and y1, decodes the race column through race_map, and derives
implicate = imputed_hh_id - household_id*10 and hh_wgt = wgt*5. -/
def load_df (raw : List RawRow) : List Row :=
  raw.map (fun r =>
    { household_id := r.yy1
      imputed_hh_id := r.y1
      wgt := r.wgt
      race := mapRaceCode r.race_code
      networth := r.networth
      vehic := r.vehic
      implicate := r.y1 - r.yy1 * 10
      hh_wgt := r.wgt * 5 })

/-- Numeric column access df[c] by column name, for the numeric columns this
program passes as the var argument. -/
def Row.getNum (r : Row) (c : String) : ℚ :=
  if c = "networth" then r.networth
  else if c = "vehic" then r.vehic
  else if c = "wgt" then r.wgt
  else if c = "hh_wgt" then r.hh_wgt
  else 0

/-- Categorical column access df[c] by column name; race is the one categorical
column of the loaded table. -/
def Row.getCat (r : Row) (c : String) : Option String :=
  if c = "race" then r.race else none

/-! ### Embedding of display_group_avgs -/

/-- The categories iterated by display_group_avgs: the distinct non-missing
values of the grouping column (value_counts drops NaN), skipping any label
whose lower-cased text reads nan.  value_counts orders its index by descending
frequency; the Python result is a dict keyed by category, so no property below
depends on the enumeration order, only on it being a function of the sequence
of grouping-column values, which the dedup enumeration is. -/
def categories (df : List Row) (grouper : String) : List String :=
  ((df.filterMap (fun r => r.getCat grouper)).dedup).filter
    (fun s => pyLower s ≠ "nan")

/-- g_df.wgt.sum() of a list of rows. -/
def wgtSum (g : List Row) : ℚ := (g.map (fun r => r.wgt)).sum

/-- The rows of one category: df[df[grouper]==gcat]. -/
def group_rows (df : List Row) (grouper gcat : String) : List Row :=
  df.filter (fun r => r.getCat grouper = some gcat)

/-- var_avg of display_group_avgs: sum(g_df.wgt * g_df[var]) / g_df.wgt.sum(). -/
def var_avg (g : List Row) (var : String) : ℚ :=
  (g.map (fun r => r.wgt * r.getNum var)).sum / wgtSum g

/-- nonetworth of display_group_avgs: g_df[g_df.networth<=0].wgt.sum().  The
filter is on the networth column of the frame, independent of the var
argument. -/
def nonetworth (g : List Row) : ℚ :=
  wgtSum (g.filter (fun r => r.networth ≤ 0))

/-- pct_nonetworth of display_group_avgs:
round(100*(nonetworth / g_df.wgt.sum()), 1). -/
def pct_nonetworth (g : List Row) : ℚ :=
  round1 (100 * (nonetworth g / wgtSum g))

/-- The group_avgs mapping returned by display_group_avgs: for each category,
var_avg when avg_worth is set, else pct_nonetworth.  The Python dict is keyed
by the (pairwise distinct) categories; it is modelled as the association list
in enumeration order. -/
def display_group_avgs (df : List Row) (var grouper : String)
    (avg_worth : Bool) : List (String × ℚ) :=
  (categories df grouper).map (fun gcat =>
    (gcat, if avg_worth then var_avg (group_rows df grouper gcat) var
           else pct_nonetworth (group_rows df grouper gcat)))

/-- The ungrouped weighted average printed at the end of display_group_avgs:
sum(df.wgt * df[var]) / sum(df.wgt). -/
def total_avg (df : List Row) (var : String) : ℚ :=
  (df.map (fun r => r.wgt * r.getNum var)).sum / (df.map (fun r => r.wgt)).sum

/-! ### Embedding of calc_zero_networth_races_overtime -/

/-- The subtract_car_value transform: df.networth -= df.vehic.  The source also
copies the original column to networth_withcar first; no statement below reads
that copy. -/
def subtract_car (df : List Row) : List Row :=
  df.map (fun r => { r with networth := r.networth - r.vehic })

/-- Series.replace with two scalar arguments: cells equal to the old value
become the new value, all other cells (NaN included) are unchanged. -/
def series_replace (old new : String) : Option String → Option String
  | some s => if s = old then some new else some s
  | none => none

/-- The per-row effect of the group_black_hispanic transform on the race cell:
two successive Series.replace calls sending Hispanic and then
black/African-American to the combined label black & hispanic. -/
def bh_relabel (r : Row) : Row :=
  { r with race := (series_replace "black/African-American" "black & hispanic"
      (series_replace "Hispanic" "black & hispanic" r.race)) }

/-- The group_black_hispanic transform applied to the whole race column. -/
def group_bh_transform (df : List Row) : List Row :=
  df.map bh_relabel

/-- The ot_data dictionary assembled by calc_zero_networth_races_overtime:
for each year of range(start, until, 3), load the summary table (the loader
argument stands for the per-year contents of the rscfp files), apply the two
optional transforms, and record the display_group_avgs result for var networth
grouped by race. -/
def overtime_data (loader : Nat → List RawRow)
    (group_black_hispanic subtract_car_value : Bool)
    (start untilY : Nat) : List (Nat × List (String × ℚ)) :=
  (pyRange3 start untilY).map (fun year =>
    let df := load_df (loader year)
    let df := if subtract_car_value then subtract_car df else df
    let df := if group_black_hispanic then group_bh_transform df else df
    (year, display_group_avgs df "networth" "race" false))

/-- The CSV path written by calc_zero_networth_races_overtime. -/
def overtime_csv_path (group_black_hispanic subtract_car_value : Bool) : String :=
  let fname := "pct_neg_wealth"
  let fname := if subtract_car_value then fname ++ "_vehics_removed" else fname
  let fname := if group_black_hispanic then fname ++ "_blackhisp_grouped" else fname
  "negative_wealth" ++ "/" ++ fname ++ ".csv"

/-- A label on a pandas DataFrame axis: a year (int) or a category (string). -/
inductive AxisLabel where
  | yr (n : Nat)
  | cat (s : String)
deriving DecidableEq

/-- The columns of pd.DataFrame applied to the ot_data mapping
year -> (category -> statistic): the outer dictionary keys, i.e. the years. -/
def df_columns (ot : List (Nat × List (String × ℚ))) : List AxisLabel :=
  ot.map (fun p => AxisLabel.yr p.1)

/-- The row index of pd.DataFrame applied to the ot_data mapping: the union of
the inner dictionary keys, i.e. the category labels. -/
def df_index (ot : List (Nat × List (String × ℚ))) : List AxisLabel :=
  (((ot.map (fun p => p.2.map Prod.fst)).flatten).dedup).map AxisLabel.cat

/-! ### String facts supporting the path claims -/

theorem repr_length_pos (n : Nat) : 0 < (toString n).length := by
  have h : (toString n).length = (toString n).data.length := rfl
  rw [h]
  exact List.length_pos.mpr (repr_data_ne_nil n)

theorem endsWithSlash_append_repr (a : String) (n : Nat) :
    endsWithSlash (a ++ toString n) = false := by
  unfold endsWithSlash
  rw [String.data_append, List.getLast?_append]
  cases hh : (toString n).data.getLast? with
  | none => exact absurd (List.getLast?_eq_none_iff.mp hh) (repr_data_ne_nil n)
  | some c =>
    have hc : c ∈ (toString n).data := List.mem_of_getLast?_eq_some hh
    simp [Option.or, repr_chars_ne_slash n c hc]

theorem append_repr_ne_empty (a : String) (n : Nat) : a ++ toString n ≠ "" := by
  intro hfalse
  have hdata := String.ext_iff.mp hfalse
  rw [String.data_append] at hdata
  exact List.append_ne_nil_of_right_ne_nil _ (repr_data_ne_nil n) hdata

/-! ### Claim C5: URL and local-path templates of SCF_load_data -/

/-- Claim C5: for every year and filetype and every base directory (nonempty
and not already ending in a separator, so that os.path.join inserts exactly one
separator), the download URL is
https://www.federalreserve.gov/econres/files/scf + file_flag + year +
panel_flag + s.zip with file_flag = p exactly for the summary filetype and
panel_flag = p exactly when year mod 3 is nonzero, and the local archive path
is datadir/year/SCF{year}_data_public_{filetype}.zip. -/
theorem claim_C5 (year : Nat) (ft : FileType) (datadir : String)
    (h1 : datadir ≠ "") (h2 : endsWithSlash datadir = false) :
    scf_url year ft =
      "https://www.federalreserve.gov/econres/files/scf" ++
        (if ft = FileType.summary then "p" else "") ++ toString year ++
        (if year % 3 ≠ 0 then "p" else "") ++ "s.zip" ∧
    scf_targetzip datadir year ft =
      datadir ++ "/" ++ toString year ++ "/" ++
        ("SCF" ++ toString year ++ "_data_public_" ++ ft.pyStr ++ ".zip") := by
  constructor
  · cases ft
    · simp [scf_url, file_string, panel_string, String.append_assoc]
      rw [← String.append_assoc]
      simp
    · simp [scf_url, file_string, panel_string, String.append_assoc]
  · unfold scf_targetzip scf_targetdir os_path_join
    have hfirst : startsWithSlash ("SCF" ++ toString year ++ "_data_public_" ++
        ft.pyStr ++ ".zip") = false := by
      unfold startsWithSlash
      have hS : ("SCF" ++ toString year ++ "_data_public_" ++ ft.pyStr ++
          ".zip").data = 'S' :: ('C' :: ('F' :: (((toString year ++
          "_data_public_" ++ ft.pyStr ++ ".zip")).data))) := by
        simp [String.data_append, String.append_assoc]
      rw [hS]
      simp
    rw [startsWithSlash_repr year]
    simp only [Bool.false_eq_true, if_false, h1, if_neg h1, h2, hfirst]
    rw [if_neg (append_repr_ne_empty (datadir ++ "/") year)]
    rw [endsWithSlash_append_repr (datadir ++ "/") year]
    simp [String.append_assoc]

/-- Witness for claim C5 at year 1992 (a multiple of 3, so the panel flag is
empty), the summary filetype and base directory data. -/
theorem claim_C5_witness :
    scf_url 1992 FileType.summary =
      "https://www.federalreserve.gov/econres/files/scf" ++
        (if FileType.summary = FileType.summary then "p" else "") ++
        toString 1992 ++ (if 1992 % 3 ≠ 0 then "p" else "") ++ "s.zip" ∧
    scf_targetzip "data" 1992 FileType.summary =
      "data" ++ "/" ++ toString 1992 ++ "/" ++
        ("SCF" ++ toString 1992 ++ "_data_public_" ++
          FileType.pyStr FileType.summary ++ ".zip") :=
  claim_C5 1992 FileType.summary "data" (by decide) (by decide)

/-! ### Claim C10: what scrape_SCF creates -/

/-- takeWhile passes over a block of elements that all satisfy the
predicate. -/
theorem takeWhile_append_of_all {p : Char → Bool} :
    ∀ (l1 l2 : List Char), (∀ c ∈ l1, p c = true) →
      (l1 ++ l2).takeWhile p = l1 ++ l2.takeWhile p := by
  intro l1
  induction l1 with
  | nil => simp
  | cons a l ih =>
    intro l2 h
    simp only [List.cons_append, List.takeWhile_cons]
    rw [h a (List.mem_cons_self a l)]
    simp [ih l2 (fun c hc => h c (List.mem_cons_of_mem a hc))]

/-- os.makedirs(p) always creates p itself (its callers here only reach it
when p is absent). -/
theorem mem_makedirs_created_core (fuel : Nat) (p : String)
    (existing : List String) : p ∈ makedirs_created_core fuel p existing := by
  cases fuel <;> simp [makedirs_created_core]

/-- Splitting datadir/year for a base directory that is nonempty and has no
trailing separator: the head is the base directory, the tail the year. -/
theorem pySplit_join (datadir : String) (y : Nat)
    (h1 : datadir ≠ "") (h2 : endsWithSlash datadir = false) :
    pySplit (datadir ++ "/" ++ toString y) = (datadir, toString y) := by
  have hrev : (datadir ++ "/" ++ toString y).data.reverse =
      (toString y).data.reverse ++ '/' :: datadir.data.reverse := by
    simp [String.data_append, List.reverse_append]
  have hall : ∀ c ∈ (toString y).data.reverse,
      (fun c => decide (c ≠ '/')) c = true := by
    intro c hc
    exact decide_eq_true (repr_chars_ne_slash y c (List.mem_reverse.mp hc))
  have htake : ((toString y).data.reverse ++
        '/' :: datadir.data.reverse).takeWhile (fun c => decide (c ≠ '/')) =
      (toString y).data.reverse := by
    rw [takeWhile_append_of_all _ _ hall]
    simp [List.takeWhile_cons]
  have hlast : datadir.data.getLast? ≠ some '/' := by
    intro hf
    rw [show endsWithSlash datadir = true from by
      unfold endsWithSlash; rw [hf]; simp] at h2
    cases h2
  have hdrop : ('/' :: datadir.data.reverse).dropWhile
      (fun c => decide (c = '/')) = datadir.data.reverse := by
    cases hd : datadir.data.reverse with
    | nil => simp [List.dropWhile_cons]
    | cons c cs =>
      have hcn : c ≠ '/' := by
        intro hf
        apply hlast
        rw [← List.head?_reverse, hd]
        simp [hf]
      simp [List.dropWhile_cons, hcn]
  have hne : datadir.data.reverse ≠ [] := by
    rw [ne_eq, List.reverse_eq_nil_iff]
    intro hf
    exact h1 (String.ext hf)
  simp only [pySplit]
  rw [hrev, htake, List.drop_left]
  rw [if_neg (by simp)]
  rw [hdrop]
  rw [if_neg hne]
  simp [List.reverse_reverse]

/-- A nonempty Python range(start, stop, 3) begins with start. -/
theorem start_mem_pyRange3 (start stop : Nat) (h : start < stop) :
    start ∈ pyRange3 start stop := by
  unfold pyRange3
  refine List.mem_map.mpr ⟨0, ?_, by omega⟩
  rw [List.mem_range]
  omega

/-- Claim C10 (amended): the os.makedirs(datadir) branch of scrape_SCF is
indeed unreachable (its guard tests the uncalled, always-truthy function
object os.path.exists), so every directory scrape_SCF creates is created
inside some per-year SCF_load_data call; but scrape_SCF can still create the
base directory, because os.makedirs is recursive: whenever the base directory
(nonempty, no trailing separator) and the first target directory are both
absent, the first per-year os.makedirs creates the base directory as a missing
parent. -/
theorem claim_C10_amended (datadir : String) (start untilY : Nat)
    (existing : List String) :
    (∀ d ∈ scrape_SCF_created datadir start untilY existing,
      ∃ y ∈ pyRange3 start (untilY + 3),
        d ∈ SCF_load_data_created datadir y existing) ∧
    (datadir ≠ "" → endsWithSlash datadir = false →
      datadir ∉ existing → scf_targetdir datadir start ∉ existing →
      start < untilY + 3 →
      datadir ∈ scrape_SCF_created datadir start untilY existing) := by
  constructor
  · intro d hd
    unfold scrape_SCF_created os_path_exists_unapplied at hd
    simp only [if_neg (by decide : ¬ (true = false)), List.nil_append] at hd
    rcases List.mem_flatten.mp hd with ⟨l, hl, hdl⟩
    rcases List.mem_map.mp hl with ⟨y, hy, rfl⟩
    exact ⟨y, hy, hdl⟩
  · intro h1 h2 h3 h4 h5
    unfold scrape_SCF_created os_path_exists_unapplied
    simp only [if_neg (by decide : ¬ (true = false)), List.nil_append]
    refine List.mem_flatten.mpr
      ⟨SCF_load_data_created datadir start existing,
       List.mem_map_of_mem _ (start_mem_pyRange3 start (untilY + 3) h5), ?_⟩
    unfold SCF_load_data_created
    rw [if_neg h4]
    have hjoin : scf_targetdir datadir start =
        datadir ++ "/" ++ toString start := by
      unfold scf_targetdir os_path_join
      rw [startsWithSlash_repr start]
      simp only [Bool.false_eq_true, if_false, h1, if_neg h1, h2]
    rw [hjoin]
    unfold makedirs_created
    obtain ⟨n, hn⟩ : ∃ n,
        (datadir ++ "/" ++ toString start).data.length = n + 1 := by
      refine Nat.exists_eq_succ_of_ne_zero ?_
      rw [ne_eq, List.length_eq_zero]
      rw [show (datadir ++ "/" ++ toString start).data =
        datadir.data ++ '/' :: (toString start).data from by
          simp [String.data_append]]
      simp
    rw [hn]
    simp only [makedirs_created_core, pySplit_join datadir start h1 h2]
    rw [if_neg (repr_ne_empty start)]
    rw [if_pos ⟨h1, repr_ne_empty start, h3⟩]
    exact List.mem_append_left _ (mem_makedirs_created_core n datadir existing)

/-- Counterexample to claim C10 as stated: on a fresh filesystem state, the
one-year run over the base directory data creates the base directory itself
(os.makedirs builds it as the missing parent of data/1992), refuting that
scrape_SCF never creates the base directory. -/
theorem claim_C10_counterexample :
    "data" ∈ scrape_SCF_created "data" 1992 1992 [] := by
  decide

/-- Witness for the amended claim C10 on the default base directory, a
one-year range and a fresh filesystem state. -/
theorem claim_C10_witness :
    (∃ y ∈ pyRange3 1992 (1992 + 3),
      "data/1992" ∈ SCF_load_data_created "data" y []) ∧
    "data" ∈ scrape_SCF_created "data" 1992 1992 [] :=
  ⟨(claim_C10_amended "data" 1992 1992 []).1 "data/1992" (by decide),
   (claim_C10_amended "data" 1992 1992 []).2 (by decide) (by decide)
     (by decide) (by decide) (by decide)⟩

/-! ### Claim C4: the derived implicate index -/

/-- Claim C4: in every loaded summary dataset the derived implicate column
equals the implicate identifier minus ten times the household identifier, and
for primary id 1000 with secondary ids 10001..10005 the derived indices are
1..5. -/
theorem claim_C4 :
    (∀ (raw : List RawRow) (i : Nat) (h : i < (load_df raw).length),
      ((load_df raw).get ⟨i, h⟩).implicate =
        ((load_df raw).get ⟨i, h⟩).imputed_hh_id -
          ((load_df raw).get ⟨i, h⟩).household_id * 10) ∧
    (load_df [⟨1000, 10001, 1, 1, 0, 0⟩, ⟨1000, 10002, 1, 1, 0, 0⟩,
              ⟨1000, 10003, 1, 1, 0, 0⟩, ⟨1000, 10004, 1, 1, 0, 0⟩,
              ⟨1000, 10005, 1, 1, 0, 0⟩]).map (fun r => r.implicate) =
      [1, 2, 3, 4, 5] := by
  constructor
  · intro raw i h
    simp [load_df]
  · decide

/-- Witness for claim C4 at a concrete one-row table. -/
theorem claim_C4_witness :
    ((load_df [⟨1000, 10001, 1, 1, 0, 0⟩]).get ⟨0, by simp [load_df]⟩).implicate =
      ((load_df [⟨1000, 10001, 1, 1, 0, 0⟩]).get ⟨0, by simp [load_df]⟩).imputed_hh_id -
        ((load_df [⟨1000, 10001, 1, 1, 0, 0⟩]).get ⟨0, by simp [load_df]⟩).household_id * 10 :=
  claim_C4.1 [⟨1000, 10001, 1, 1, 0, 0⟩] 0 (by simp [load_df])

/-! ### Claim C8: the derived adjusted-weight column -/

/-- Claim C8: every row of a loaded summary dataset carries
hh_wgt = wgt * 5, the raw sampling weight multiplied by five. -/
theorem claim_C8 (raw : List RawRow) (r : Row) (h : r ∈ load_df raw) :
    r.hh_wgt = r.wgt * 5 := by
  rcases List.mem_map.mp (by simpa [load_df] using h) with ⟨rr, _, rfl⟩
  rfl

/-- Witness for claim C8 at a concrete one-row table. -/
theorem claim_C8_witness :
    ((load_df [⟨0, 0, 2, 1, 0, 0⟩]).get ⟨0, by simp [load_df]⟩).hh_wgt =
      ((load_df [⟨0, 0, 2, 1, 0, 0⟩]).get ⟨0, by simp [load_df]⟩).wgt * 5 :=
  claim_C8 [⟨0, 0, 2, 1, 0, 0⟩] _ (List.get_mem _ _ _)

/-! ### Claim C6: race decoding and unmapped codes -/

/-- Claim C6: loading a summary dataset decodes the race column through the
five-entry code table, sending 1..5 to the five labels, and every other code to
the missing value none (so an unmapped code such as 6 never silently becomes
one of the five known labels). -/
theorem claim_C6 :
    (∀ (raw : List RawRow) (i : Nat) (h : i < (load_df raw).length),
      ((load_df raw).get ⟨i, h⟩).race =
        mapRaceCode ((raw.get ⟨i, by simpa [load_df] using h⟩).race_code)) ∧
    (mapRaceCode 1 = some "white non-Hispanic" ∧
     mapRaceCode 2 = some "black/African-American" ∧
     mapRaceCode 3 = some "Hispanic" ∧
     mapRaceCode 4 = some "Asian" ∧
     mapRaceCode 5 = some "other") ∧
    (∀ c : Int, c ∉ ([1, 2, 3, 4, 5] : List Int) → mapRaceCode c = none) := by
  refine ⟨?_, by decide, ?_⟩
  · intro raw i h
    simp [load_df]
  · intro c hc
    simp only [List.mem_cons, List.not_mem_nil, not_or] at hc
    obtain ⟨n1, n2, n3, n4, n5, -⟩ := hc
    simp [mapRaceCode, race_map, List.lookup, beq_eq_false_iff_ne.mpr n1,
      beq_eq_false_iff_ne.mpr n2, beq_eq_false_iff_ne.mpr n3,
      beq_eq_false_iff_ne.mpr n4, beq_eq_false_iff_ne.mpr n5]

/-- Witness for claim C6: at a table whose row carries the unmapped race code
6, the loaded race cell is the missing value. -/
theorem claim_C6_witness :
    ((load_df [⟨0, 0, 1, 6, 0, 0⟩]).get ⟨0, by simp [load_df]⟩).race =
      mapRaceCode (([⟨0, 0, 1, 6, 0, 0⟩] :
        List RawRow).get ⟨0, by simp⟩).race_code ∧
    mapRaceCode 6 = none :=
  ⟨claim_C6.1 [⟨0, 0, 1, 6, 0, 0⟩] 0 (by simp [load_df]),
   claim_C6.2.2 6 (by decide)⟩

/-! ### Helper lemmas for the aggregator claims -/

/-- Looking a key up in the association list built over a list of keys finds
the image of that key. -/
theorem lookup_map_self {β : Type} (f : String → β) :
    ∀ (cats : List String) (gcat : String), gcat ∈ cats →
      List.lookup gcat (cats.map (fun c => (c, f c))) = some (f gcat) := by
  intro cats
  induction cats with
  | nil => intro gcat h; cases h
  | cons c cs ih =>
    intro gcat h
    rcases List.mem_cons.mp h with rfl | h2
    · simp [List.lookup]
    · by_cases hc : gcat = c
      · subst hc; simp [List.lookup]
      · simp only [List.map_cons, List.lookup, beq_eq_false_iff_ne.mpr hc]
        exact ih gcat h2

/-- A table row carrying the fields the aggregator reads; the identifier and
derived columns are fixed at defaults. -/
def mkRow (race : Option String) (w nw vv : ℚ) : Row :=
  { household_id := 0, imputed_hh_id := 0, wgt := w, race := race,
    networth := nw, vehic := vv, implicate := 0, hh_wgt := w * 5 }

/-! ### Claim C1: the weighted non-positive share -/

/-- Claim C1 (amended): the share filter of display_group_avgs is on the
networth column of the frame (g_df[g_df.networth<=0]), not on the var column:
for every table, var argument and category present in the grouping column, the
returned statistic is 100 times the category weight on rows with non-positive
networth over the category weight, rounded to one decimal place; in
consequence, when exactly half of a category's weight lies on rows with
non-positive networth, the returned share is 50. -/
theorem claim_C1_amended :
    (∀ (df : List Row) (var grouper gcat : String),
      gcat ∈ categories df grouper →
      List.lookup gcat (display_group_avgs df var grouper false) =
        some (round1 (100 *
          (wgtSum ((group_rows df grouper gcat).filter (fun r => r.networth ≤ 0)) /
            wgtSum (group_rows df grouper gcat))))) ∧
    (∀ (df : List Row) (var grouper gcat : String),
      gcat ∈ categories df grouper →
      wgtSum (group_rows df grouper gcat) ≠ 0 →
      2 * wgtSum ((group_rows df grouper gcat).filter (fun r => r.networth ≤ 0)) =
        wgtSum (group_rows df grouper gcat) →
      List.lookup gcat (display_group_avgs df var grouper false) = some 50) := by
  have part1 : ∀ (df : List Row) (var grouper gcat : String),
      gcat ∈ categories df grouper →
      List.lookup gcat (display_group_avgs df var grouper false) =
        some (round1 (100 *
          (wgtSum ((group_rows df grouper gcat).filter (fun r => r.networth ≤ 0)) /
            wgtSum (group_rows df grouper gcat)))) := by
    intro df var grouper gcat h
    unfold display_group_avgs
    rw [lookup_map_self _ _ _ h]
    simp [pct_nonetworth, nonetworth]
  refine ⟨part1, ?_⟩
  intro df var grouper gcat h hW hhalf
  rw [part1 df var grouper gcat h]
  have hfrac : wgtSum ((group_rows df grouper gcat).filter
      (fun r => r.networth ≤ 0)) / wgtSum (group_rows df grouper gcat) =
      1 / 2 := by
    field_simp
    linarith
  rw [hfrac]
  norm_num [round1, round_eq]

/-- The concrete table refuting claim C1 as stated: one row whose vehic value
is non-positive but whose networth is positive. -/
def c1df : List Row := [mkRow (some "white non-Hispanic") 1 3 (-5)]

/-- Counterexample to claim C1 as stated: with var = vehic on c1df, the
aggregator returns share 0 (its filter reads the networth column, 3 > 0),
while the claimed formula filtered on the var column gives 100. -/
theorem claim_C1_counterexample :
    List.lookup "white non-Hispanic"
        (display_group_avgs c1df "vehic" "race" false) ≠
      some (round1 (100 *
        (wgtSum ((group_rows c1df "race" "white non-Hispanic").filter
            (fun r => r.getNum "vehic" ≤ 0)) /
          wgtSum (group_rows c1df "race" "white non-Hispanic")))) := by
  have hcats : categories c1df "race" = ["white non-Hispanic"] := by decide
  rw [display_group_avgs, hcats]
  simp +decide [group_rows, pct_nonetworth, nonetworth, wgtSum, round1,
    Row.getNum, Row.getCat, mkRow, c1df, List.filter, List.lookup]
  all_goals norm_num [round_eq]

/-- The concrete table witnessing the amended claim C1: one category holding
half its weight on a row with negative networth. -/
def c1wdf : List Row := [mkRow (some "A") 1 (-1) 0, mkRow (some "A") 1 1 0]

/-- Witness for the amended claim C1 on c1wdf: both the general formula and
the half-weight consequence, the latter returning exactly 50. -/
theorem claim_C1_witness :
    List.lookup "A" (display_group_avgs c1wdf "networth" "race" false) =
      some (round1 (100 *
        (wgtSum ((group_rows c1wdf "race" "A").filter (fun r => r.networth ≤ 0)) /
          wgtSum (group_rows c1wdf "race" "A")))) ∧
    List.lookup "A" (display_group_avgs c1wdf "networth" "race" false) =
      some 50 :=
  ⟨claim_C1_amended.1 c1wdf "networth" "race" "A" (by decide),
   claim_C1_amended.2 c1wdf "networth" "race" "A" (by decide)
     (by norm_num [wgtSum, group_rows, c1wdf, mkRow, Row.getCat, List.filter])
     (by norm_num [wgtSum, group_rows, c1wdf, mkRow, Row.getCat, List.filter])⟩

/-! ### Claim C3: the weighted average -/

/-- Splitting a sum over a list along two disjoint covering Boolean
predicates. -/
theorem sum_filter_partition (l : List Row) (f : Row → ℚ) (p q : Row → Bool)
    (hdisj : ∀ r ∈ l, ¬(p r = true ∧ q r = true))
    (hcov : ∀ r ∈ l, p r = true ∨ q r = true) :
    ((l.filter p).map f).sum + ((l.filter q).map f).sum = (l.map f).sum := by
  induction l with
  | nil => simp
  | cons a l ih =>
    have ihl := ih (fun r hr => hdisj r (List.mem_cons_of_mem a hr))
      (fun r hr => hcov r (List.mem_cons_of_mem a hr))
    rcases hcov a (List.mem_cons_self a l) with hpa | hqa
    · have hqa : q a = false := by
        by_cases hq : q a = true
        · exact absurd ⟨hpa, hq⟩ (hdisj a (List.mem_cons_self a l))
        · exact Bool.eq_false_iff.mpr hq
      simp only [List.filter_cons, hpa, hqa, if_true, Bool.false_eq_true,
        if_false, List.map_cons, List.sum_cons]
      linarith [ihl]
    · have hpa : p a = false := by
        by_cases hp : p a = true
        · exact absurd ⟨hp, hqa⟩ (hdisj a (List.mem_cons_self a l))
        · exact Bool.eq_false_iff.mpr hp
      simp only [List.filter_cons, hpa, hqa, if_true, Bool.false_eq_true,
        if_false, List.map_cons, List.sum_cons]
      linarith [ihl]

/-- Claim C3: the per-category statistic returned with avg_worth set is the
weighted average sum(weight*value)/sum(weight) over the category rows; in
consequence, for a table split into two categories of equal nonzero total
weight, the ungrouped weighted average printed at the end equals the
unweighted mean of the two per-category weighted averages. -/
theorem claim_C3 :
    (∀ (df : List Row) (var grouper gcat : String),
      gcat ∈ categories df grouper →
      List.lookup gcat (display_group_avgs df var grouper true) =
        some (((group_rows df grouper gcat).map
            (fun r => r.wgt * r.getNum var)).sum /
          ((group_rows df grouper gcat).map (fun r => r.wgt)).sum)) ∧
    (∀ (df : List Row) (var grouper c1 c2 : String),
      categories df grouper = [c1, c2] →
      (∀ r ∈ df, r.getCat grouper = some c1 ∨ r.getCat grouper = some c2) →
      wgtSum (group_rows df grouper c1) = wgtSum (group_rows df grouper c2) →
      wgtSum (group_rows df grouper c1) ≠ 0 →
      total_avg df var =
        (var_avg (group_rows df grouper c1) var +
          var_avg (group_rows df grouper c2) var) / 2) := by
  constructor
  · intro df var grouper gcat h
    unfold display_group_avgs
    rw [lookup_map_self _ _ _ h]
    simp [var_avg, wgtSum]
  · intro df var grouper c1 c2 hcats hcov hEq hW
    have hnodup : (categories df grouper).Nodup := by
      unfold categories
      exact List.Nodup.filter _ (List.nodup_dedup _)
    rw [hcats] at hnodup
    have hne : c1 ≠ c2 := by
      rcases List.nodup_cons.mp hnodup with ⟨h1, -⟩
      simpa using h1
    have hdisj : ∀ r ∈ df,
        ¬(decide (r.getCat grouper = some c1) = true ∧
          decide (r.getCat grouper = some c2) = true) := by
      rintro r - ⟨ha, hb⟩
      rw [decide_eq_true_eq] at ha hb
      exact hne (Option.some.inj (ha.symm.trans hb))
    have hcov2 : ∀ r ∈ df,
        decide (r.getCat grouper = some c1) = true ∨
        decide (r.getCat grouper = some c2) = true := by
      intro r hr
      rcases hcov r hr with h | h
      · exact Or.inl (decide_eq_true h)
      · exact Or.inr (decide_eq_true h)
    have hnum := sum_filter_partition df (fun r => r.wgt * r.getNum var) _ _
      hdisj hcov2
    have hden := sum_filter_partition df (fun r => r.wgt) _ _ hdisj hcov2
    unfold wgtSum group_rows at hEq hW
    unfold total_avg var_avg wgtSum group_rows
    rw [← hnum, ← hden, ← hEq, div_add_div_same, div_div]
    congr 1
    ring

/-- The concrete table witnessing claim C3: two categories of equal weight. -/
def c3df : List Row := [mkRow (some "A") 1 10 0, mkRow (some "B") 1 20 0]

/-- Witness for claim C3 on c3df: the category statistic is the weighted
average, and the ungrouped average 15 is the mean of the two category
averages 10 and 20. -/
theorem claim_C3_witness :
    List.lookup "A" (display_group_avgs c3df "networth" "race" true) =
      some (((group_rows c3df "race" "A").map
          (fun r => r.wgt * r.getNum "networth")).sum /
        ((group_rows c3df "race" "A").map (fun r => r.wgt)).sum) ∧
    total_avg c3df "networth" =
      (var_avg (group_rows c3df "race" "A") "networth" +
        var_avg (group_rows c3df "race" "B") "networth") / 2 :=
  ⟨claim_C3.1 c3df "networth" "race" "A" (by decide),
   claim_C3.2 c3df "networth" "race" "A" "B" (by decide) (by decide)
     (by simp +decide [wgtSum, group_rows, c3df, mkRow, Row.getCat, List.filter])
     (by simp +decide [wgtSum, group_rows, c3df, mkRow, Row.getCat, List.filter])⟩

/-! ### Claim C7: merging Hispanic and black/African-American -/

/-- Relabelling only touches the race cell, so numeric column access is
unchanged. -/
theorem getNum_bh_relabel (r : Row) (c : String) :
    (bh_relabel r).getNum c = r.getNum c := rfl

/-- On a table with no pre-existing black & hispanic label, the combined group
after the transform is exactly the relabelled union of the rows originally
labelled Hispanic or black/African-American. -/
theorem group_bh_rows (df : List Row)
    (h : ∀ r ∈ df, r.race ≠ some "black & hispanic") :
    group_rows (group_bh_transform df) "race" "black & hispanic" =
      (df.filter (fun r => r.race = some "Hispanic" ∨
        r.race = some "black/African-American")).map bh_relabel := by
  induction df with
  | nil => rfl
  | cons a l ih =>
    have ha := h a (List.mem_cons_self a l)
    have ihl := ih (fun r hr => h r (List.mem_cons_of_mem a hr))
    unfold group_bh_transform group_rows at ihl ⊢
    simp [Row.getCat] at ihl
    simp only [List.map_cons, List.filter_cons]
    rcases hrace : a.race with - | s
    · have e1 : (bh_relabel a).race = none := by
        simp [bh_relabel, series_replace, hrace]
      simp [Row.getCat, e1, hrace]
      exact ihl
    · by_cases h1 : s = "Hispanic"
      · subst h1
        have e1 : (bh_relabel a).race = some "black & hispanic" := by
          simp [bh_relabel, series_replace, hrace]
        simp [Row.getCat, e1, hrace]
        exact ihl
      · by_cases h2 : s = "black/African-American"
        · subst h2
          have e1 : (bh_relabel a).race = some "black & hispanic" := by
            simp [bh_relabel, series_replace, hrace]
          simp [Row.getCat, e1, hrace, h1]
          exact ihl
        · have hs : s ≠ "black & hispanic" := by
            intro hf
            exact ha (by rw [hrace, hf])
          have e1 : (bh_relabel a).race = some s := by
            simp [bh_relabel, series_replace, hrace, h1, h2]
          simp [Row.getCat, e1, hrace, h1, h2, hs]
          exact ihl

/-- The weighted average ignores the race cell, so it is invariant under
relabelling every row. -/
theorem var_avg_map_bh (l : List Row) (var : String) :
    var_avg (l.map bh_relabel) var = var_avg l var := by
  unfold var_avg wgtSum
  rw [List.map_map, List.map_map]
  rfl

/-- The non-positive-networth share ignores the race cell, so it is invariant
under relabelling every row. -/
theorem pct_map_bh (l : List Row) :
    pct_nonetworth (l.map bh_relabel) = pct_nonetworth l := by
  unfold pct_nonetworth nonetworth wgtSum
  rw [List.filter_map, List.map_map, List.map_map]
  rfl

/-- When some row is labelled Hispanic or black/African-American, the combined
label appears among the transformed categories. -/
theorem bh_mem_categories (df : List Row)
    (hex : ∃ r ∈ df, r.race = some "Hispanic" ∨
      r.race = some "black/African-American") :
    "black & hispanic" ∈ categories (group_bh_transform df) "race" := by
  unfold categories
  rw [List.mem_filter]
  constructor
  · rw [List.mem_dedup, List.mem_filterMap]
    rcases hex with ⟨r, hr, hcase⟩
    refine ⟨bh_relabel r, List.mem_map_of_mem _ hr, ?_⟩
    rcases hcase with h1 | h1 <;>
      simp [bh_relabel, Row.getCat, series_replace, h1]
  · decide

/-- Claim C7 (amended): on every table none of whose rows already carries the
combined label black & hispanic, and at least one of whose rows is labelled
Hispanic or black/African-American, relabelling those two categories and
aggregating yields for the combined label exactly the statistic (weighted
average or non-positive-networth share) computed directly over the union of
the rows originally labelled Hispanic or black/African-American. -/
theorem claim_C7_amended (df : List Row)
    (h : ∀ r ∈ df, r.race ≠ some "black & hispanic")
    (hex : ∃ r ∈ df, r.race = some "Hispanic" ∨
      r.race = some "black/African-American")
    (var : String) (aw : Bool) :
    List.lookup "black & hispanic"
        (display_group_avgs (group_bh_transform df) var "race" aw) =
      some (if aw then
          var_avg (df.filter (fun r => r.race = some "Hispanic" ∨
            r.race = some "black/African-American")) var
        else pct_nonetworth (df.filter (fun r => r.race = some "Hispanic" ∨
            r.race = some "black/African-American"))) := by
  unfold display_group_avgs
  rw [lookup_map_self _ _ _ (bh_mem_categories df hex)]
  rw [group_bh_rows df h]
  cases aw
  · simp [pct_map_bh]
  · simp [var_avg_map_bh]

/-- The concrete table refuting claim C7 as stated: a row already labelled
black & hispanic joins the merged group but not the union of the originally
Hispanic and black/African-American rows. -/
def c7df : List Row :=
  [mkRow (some "black & hispanic") 1 10 0, mkRow (some "Hispanic") 1 0 0]

/-- Counterexample to claim C7 as stated (quantified over every input table):
on c7df the merged-group weighted average is 5, while the average over the
union of the originally Hispanic and black/African-American rows is 0. -/
theorem claim_C7_counterexample :
    List.lookup "black & hispanic"
        (display_group_avgs (group_bh_transform c7df) "networth" "race" true) ≠
      some (var_avg (c7df.filter (fun r => r.race = some "Hispanic" ∨
        r.race = some "black/African-American")) "networth") := by
  have hcats : categories (group_bh_transform c7df) "race" =
      ["black & hispanic"] := by decide
  rw [display_group_avgs, hcats]
  simp +decide [group_rows, var_avg, wgtSum, Row.getNum, Row.getCat, mkRow,
    c7df, group_bh_transform, bh_relabel, series_replace, List.filter,
    List.lookup]

/-- The concrete table witnessing the amended claim C7. -/
def c7wdf : List Row :=
  [mkRow (some "Hispanic") 1 (-1) 0,
   mkRow (some "black/African-American") 1 1 0,
   mkRow (some "white non-Hispanic") 1 5 0]

/-- Witness for the amended claim C7 on c7wdf, for the share statistic. -/
theorem claim_C7_witness :
    List.lookup "black & hispanic"
        (display_group_avgs (group_bh_transform c7wdf) "networth" "race"
          false) =
      some (if false then
          var_avg (c7wdf.filter (fun r => r.race = some "Hispanic" ∨
            r.race = some "black/African-American")) "networth"
        else pct_nonetworth (c7wdf.filter (fun r => r.race = some "Hispanic" ∨
            r.race = some "black/African-American"))) :=
  claim_C7_amended c7wdf (by decide) (by decide) "networth" false

/-! ### Claim C2: the persisted over-time artifact -/

/-- Claim C2 (amended): the delimited file is written at
negative_wealth/pct_neg_wealth[_vehics_removed][_blackhisp_grouped].csv, but
the orientation is the transpose of the claimed one: pd.DataFrame on the
year -> (category -> statistic) mapping makes the years the columns and the
category labels the row index. -/
theorem claim_C2_amended (loader : Nat → List RawRow)
    (gbh scv : Bool) (start untilY : Nat) :
    overtime_csv_path gbh scv =
      "negative_wealth/pct_neg_wealth" ++
        (if scv then "_vehics_removed" else "") ++
        (if gbh then "_blackhisp_grouped" else "") ++ ".csv" ∧
    df_columns (overtime_data loader gbh scv start untilY) =
      (pyRange3 start untilY).map AxisLabel.yr ∧
    (∀ lab ∈ df_index (overtime_data loader gbh scv start untilY),
      ∃ s, lab = AxisLabel.cat s ∧
        ∃ y stats, (y, stats) ∈ overtime_data loader gbh scv start untilY ∧
          s ∈ stats.map Prod.fst) ∧
    (∀ y stats, (y, stats) ∈ overtime_data loader gbh scv start untilY →
      ∀ s ∈ stats.map Prod.fst,
        AxisLabel.cat s ∈ df_index (overtime_data loader gbh scv start untilY)) := by
  refine ⟨?_, ?_, ?_, ?_⟩
  · cases gbh <;> cases scv <;> decide
  · unfold df_columns overtime_data
    rw [List.map_map]
    rfl
  · intro lab hlab
    unfold df_index at hlab
    rcases List.mem_map.mp hlab with ⟨s, hs, rfl⟩
    refine ⟨s, rfl, ?_⟩
    rw [List.mem_dedup] at hs
    rcases List.mem_flatten.mp hs with ⟨cats, hcats, hscats⟩
    rcases List.mem_map.mp hcats with ⟨⟨y, stats⟩, hp, rfl⟩
    exact ⟨y, stats, hp, hscats⟩
  · intro y stats hp s hs
    unfold df_index
    refine List.mem_map_of_mem _ ?_
    rw [List.mem_dedup]
    exact List.mem_flatten.mpr
      ⟨stats.map Prod.fst, List.mem_map_of_mem _ hp, hs⟩

/-- The concrete loader refuting the claimed orientation: one row with race
code 1 for every year. -/
def c2loader : Nat → List RawRow := fun _ => [⟨0, 0, 1, 1, 0, 0⟩]

/-- Counterexample to claim C2 as stated: on a one-year run the row index of
the persisted frame is the category label white non-Hispanic, not the year
1992, so the rows are not the years of the processed range. -/
theorem claim_C2_counterexample :
    df_index (overtime_data c2loader false false 1992 1993) ≠
      (pyRange3 1992 1993).map AxisLabel.yr := by
  decide

/-- Witness for the amended claim C2 on a concrete one-year run. -/
theorem claim_C2_witness :
    overtime_csv_path false false =
      "negative_wealth/pct_neg_wealth" ++ (if false then "_vehics_removed" else "") ++
        (if false then "_blackhisp_grouped" else "") ++ ".csv" ∧
    df_columns (overtime_data c2loader false false 1992 1993) =
      (pyRange3 1992 1993).map AxisLabel.yr ∧
    (∃ s, (AxisLabel.cat "white non-Hispanic") = AxisLabel.cat s ∧
      ∃ y stats, (y, stats) ∈ overtime_data c2loader false false 1992 1993 ∧
        s ∈ stats.map Prod.fst) ∧
    AxisLabel.cat "white non-Hispanic" ∈
      df_index (overtime_data c2loader false false 1992 1993) := by
  obtain ⟨h1, h2, h3, h4⟩ := claim_C2_amended c2loader false false 1992 1993
  have hot : overtime_data c2loader false false 1992 1993 =
      [(1992, display_group_avgs (load_df (c2loader 1992))
        "networth" "race" false)] := by
    rw [overtime_data, (by decide : pyRange3 1992 1993 = [1992])]
    rfl
  refine ⟨h1, h2, h3 (AxisLabel.cat "white non-Hispanic") (by decide), ?_⟩
  refine h4 1992 (display_group_avgs (load_df (c2loader 1992))
    "networth" "race" false) ?_ "white non-Hispanic" (by decide)
  rw [hot]
  exact List.mem_cons_self _ _

/-! ### Claim C9: the aggregator reads only four columns -/

/-- The observation display_group_avgs makes of one row: the grouping cell,
the var cell, the networth cell and the weight cell. -/
def obs (var grouper : String) (r : Row) : Option String × ℚ × ℚ × ℚ :=
  (r.getCat grouper, r.getNum var, r.networth, r.wgt)

theorem categories_obs (df : List Row) (var grouper : String) :
    categories df grouper =
      (((df.map (obs var grouper)).filterMap (fun t => t.1)).dedup).filter
        (fun s => pyLower s ≠ "nan") := by
  unfold categories
  rw [List.filterMap_map]
  rfl

theorem wgtSum_group_obs (df : List Row) (var grouper gcat : String) :
    wgtSum (group_rows df grouper gcat) =
      (((df.map (obs var grouper)).filter
          (fun t => decide (t.1 = some gcat))).map (fun t => t.2.2.2)).sum := by
  unfold wgtSum group_rows
  rw [List.filter_map, List.map_map]
  rfl

theorem num_group_obs (df : List Row) (var grouper gcat : String) :
    ((group_rows df grouper gcat).map (fun r => r.wgt * r.getNum var)).sum =
      (((df.map (obs var grouper)).filter
          (fun t => decide (t.1 = some gcat))).map
        (fun t => t.2.2.2 * t.2.1)).sum := by
  unfold group_rows
  rw [List.filter_map, List.map_map]
  rfl

theorem nonet_group_obs (df : List Row) (var grouper gcat : String) :
    nonetworth (group_rows df grouper gcat) =
      (((df.map (obs var grouper)).filter
          (fun t => decide (t.2.2.1 ≤ 0) && decide (t.1 = some gcat))).map
        (fun t => t.2.2.2)).sum := by
  unfold nonetworth wgtSum group_rows
  rw [List.filter_filter, List.filter_map, List.map_map]
  rfl

/-- Claim C9: two tables that agree row-by-row on the grouping column, the var
column, the networth column and the wgt column produce identical
display_group_avgs results; in particular the derived hh_wgt and implicate
columns (and every other column) never influence the returned statistics. -/
theorem claim_C9 (df1 df2 : List Row) (var grouper : String) (aw : Bool)
    (h : df1.map (obs var grouper) = df2.map (obs var grouper)) :
    display_group_avgs df1 var grouper aw =
      display_group_avgs df2 var grouper aw := by
  unfold display_group_avgs
  have hcats : categories df1 grouper = categories df2 grouper := by
    rw [categories_obs df1 var grouper, categories_obs df2 var grouper, h]
  rw [hcats]
  apply List.map_congr_left
  intro gcat hg
  have hpct : pct_nonetworth (group_rows df1 grouper gcat) =
      pct_nonetworth (group_rows df2 grouper gcat) := by
    unfold pct_nonetworth
    rw [nonet_group_obs df1 var grouper gcat,
      wgtSum_group_obs df1 var grouper gcat, h,
      ← wgtSum_group_obs df2 var grouper gcat,
      ← nonet_group_obs df2 var grouper gcat]
  have havg : var_avg (group_rows df1 grouper gcat) var =
      var_avg (group_rows df2 grouper gcat) var := by
    unfold var_avg
    rw [num_group_obs df1 var grouper gcat,
      wgtSum_group_obs df1 var grouper gcat, h,
      ← wgtSum_group_obs df2 var grouper gcat,
      ← num_group_obs df2 var grouper gcat]
  cases aw <;> simp [hpct, havg]

/-- First witness table for claim C9: nonzero identifiers, implicate and an
hh_wgt cell unrelated to wgt. -/
def c9df1 : List Row := [⟨7, 8, 1, some "A", 2, 3, 9, 11⟩]

/-- Second witness table for claim C9: same four observed columns as c9df1,
different identifier, implicate and hh_wgt cells. -/
def c9df2 : List Row := [⟨0, 0, 1, some "A", 2, 3, 0, 5⟩]

/-- Witness for claim C9: the two tables agree on the four observed columns
and the aggregator returns identical results on them. -/
theorem claim_C9_witness :
    display_group_avgs c9df1 "networth" "race" false =
      display_group_avgs c9df2 "networth" "race" false :=
  claim_C9 c9df1 c9df2 "networth" "race" false (by decide)

end SCF
